import Mathlib

/-!
Verification of the article module of the saas-starter repository.

The embedding follows the source in `src/app/api/tags/route.ts` (which
contains the repository functions from `lib/db/queries`), the route
handlers in `src/app/api/articles/route.ts` and
`src/app/api/articles/[id]/route.ts`, and the article-creation POST
handler. The database is modelled as explicit lists of rows; `findFirst`
becomes `List.find?`, SQL `where` filters become `List.filter`, and the
ambient session (`getUser`) is modelled as an `Option Nat` holding the
resolved user id. Timestamps (`new Date()`) are passed in explicitly as
a `now : Nat` parameter. Fallible repository functions (`throw new
Error`) return `Except String`.
-/

set_option maxRecDepth 4000

inductive Role where
  | member
  | owner
deriving DecidableEq, Repr

inductive ArticleStatus where
  | draft
  | published
  | unpublished
deriving DecidableEq, Repr

/-- One row of the `teamMembers` table: (userId, teamId, role). -/
structure TeamMemberRow where
  userId : Nat
  teamId : Nat
  role : Role
deriving DecidableEq, Repr

/-- One row of the `articles` table. -/
structure Article where
  id : Nat
  title : String
  slug : String
  content : String
  excerpt : String
  status : ArticleStatus
  authorId : Nat
  teamId : Nat
  publishedAt : Option Nat
  createdAt : Nat
  updatedAt : Nat
deriving DecidableEq, Repr

/-- One row of the `articleTags` join table. -/
structure ArticleTagRow where
  articleId : Nat
  tagId : Nat
deriving DecidableEq, Repr

/-- One row of the `articleCategories` join table. -/
structure ArticleCategoryRow where
  articleId : Nat
  categoryId : Nat
deriving DecidableEq, Repr

/-- The persistent store: the tables the article module touches, plus the
auto-increment counter used by `insert ... returning`. -/
structure DB where
  memberships : List TeamMemberRow
  articles : List Article
  articleTags : List ArticleTagRow
  articleCategories : List ArticleCategoryRow
  nextArticleId : Nat
deriving DecidableEq, Repr

/-- The character class `[a-z0-9]` of the slug regex. -/
def isSlugChar (c : Char) : Bool :=
  (('a' ≤ c) && (c ≤ 'z')) || (('0' ≤ c) && (c ≤ '9'))

/-- `replace(/[^a-z0-9]+/g, '-')`: each maximal run of characters outside
`[a-z0-9]` becomes a single hyphen. The accumulator flag records whether we
are currently inside such a run (so further run characters emit nothing). -/
def collapseAux : Bool → List Char → List Char
  | _, [] => []
  | inRun, c :: rest =>
    if isSlugChar c then c :: collapseAux false rest
    else if inRun then collapseAux true rest
    else '-' :: collapseAux true rest

def collapseRuns (l : List Char) : List Char := collapseAux false l

/-- `replace(/(^-|-$)/g, '')` removes at most one leading and one trailing
hyphen; this helper removes the leading one. -/
def dropLeadHyphen (l : List Char) : List Char :=
  if l.head? = some '-' then l.tail else l

def stripEdgeHyphens (l : List Char) : List Char :=
  (dropLeadHyphen (dropLeadHyphen l).reverse).reverse

/-- `generateSlug` from the source: lowercase the title, collapse runs of
non-alphanumeric characters to single hyphens, strip edge hyphens. -/
def generateSlug (title : String) : String :=
  String.mk (stripEdgeHyphens (collapseRuns (title.data.map Char.toLower)))

/-- No two adjacent hyphens occur in the list. -/
abbrev NoAdjHyphens (l : List Char) : Prop :=
  l.Chain' (fun a b => ¬(a = '-' ∧ b = '-'))

theorem isSlugChar_ne_hyphen {c : Char} (h : isSlugChar c = true) : c ≠ '-' :=
  fun he => absurd h (by subst he; decide)

theorem collapseAux_true_head {l : List Char} {c : Char}
    (h : (collapseAux true l).head? = some c) : isSlugChar c = true := by
  induction l with
  | nil => simp [collapseAux] at h
  | cons d rest ih =>
    by_cases hd : isSlugChar d
    · simp [collapseAux, hd] at h
      exact h ▸ hd
    · simp [collapseAux, hd] at h
      exact ih h

theorem noAdj_collapseAux (l : List Char) (b : Bool) :
    NoAdjHyphens (collapseAux b l) := by
  induction l generalizing b with
  | nil => simp [collapseAux]
  | cons c rest ih =>
    by_cases hc : isSlugChar c
    · have htail := ih false
      simp only [collapseAux, hc, if_true]
      refine List.chain'_cons'.mpr ⟨?_, htail⟩
      intro y _ hcontra
      exact isSlugChar_ne_hyphen hc hcontra.1
    · cases b with
      | true => simpa [collapseAux, hc] using ih true
      | false =>
        have htail := ih true
        simp only [collapseAux, hc, if_false, Bool.false_eq_true]
        refine List.chain'_cons'.mpr ⟨?_, htail⟩
        intro y hy hcontra
        rw [Option.mem_def] at hy
        exact isSlugChar_ne_hyphen (collapseAux_true_head hy) hcontra.2

theorem noAdj_collapseRuns (l : List Char) : NoAdjHyphens (collapseRuns l) :=
  noAdj_collapseAux l false

theorem noAdj_dropLeadHyphen {l : List Char} (h : NoAdjHyphens l) :
    NoAdjHyphens (dropLeadHyphen l) := by
  unfold dropLeadHyphen
  split
  · exact List.Chain'.tail h
  · exact h

theorem noAdj_reverse {l : List Char} (h : NoAdjHyphens l) :
    NoAdjHyphens l.reverse := by
  rw [NoAdjHyphens, List.chain'_reverse]
  exact List.Chain'.imp (fun a b hab h2 => hab ⟨h2.2, h2.1⟩) h

theorem head?_dropLeadHyphen {l : List Char} (h : NoAdjHyphens l) :
    (dropLeadHyphen l).head? ≠ some '-' := by
  cases l with
  | nil => decide
  | cons c rest =>
    by_cases hc : c = '-'
    · subst hc
      simp only [dropLeadHyphen, List.head?_cons, if_pos rfl, List.tail_cons]
      cases rest with
      | nil => simp
      | cons d t =>
        intro hd
        exact (List.chain'_cons.mp h).1 ⟨rfl, Option.some.inj hd⟩
    · simp only [dropLeadHyphen, List.head?_cons, Option.some.injEq,
        if_neg hc, List.head?_cons]
      intro hcon
      exact hc (Option.some.injEq .. ▸ hcon)

theorem getLast?_dropLeadHyphen {l : List Char}
    (h : l.getLast? ≠ some '-') : (dropLeadHyphen l).getLast? ≠ some '-' := by
  cases l with
  | nil => decide
  | cons c rest =>
    by_cases hc : c = '-'
    · subst hc
      simp only [dropLeadHyphen, List.head?_cons, if_pos rfl, List.tail_cons]
      cases rest with
      | nil => simp
      | cons d t => simpa [List.getLast?_cons_cons] using h
    · simpa only [dropLeadHyphen, List.head?_cons, Option.some.injEq,
        if_neg hc] using h

theorem stripEdgeHyphens_head {l : List Char} (h : NoAdjHyphens l) :
    (stripEdgeHyphens l).head? ≠ some '-' := by
  unfold stripEdgeHyphens
  rw [List.head?_reverse]
  apply getLast?_dropLeadHyphen
  rw [List.getLast?_reverse]
  exact head?_dropLeadHyphen h

theorem stripEdgeHyphens_last {l : List Char} (h : NoAdjHyphens l) :
    (stripEdgeHyphens l).getLast? ≠ some '-' := by
  unfold stripEdgeHyphens
  rw [List.getLast?_reverse]
  exact head?_dropLeadHyphen (noAdj_reverse (noAdj_dropLeadHyphen h))

/-- C6: Slug derivation is a deterministic pure function of the title:
lowercasing, collapsing runs of non-alphanumeric characters to single
hyphens and stripping edge hyphens; the given example maps to
"hello-world-2024", and for every input the result neither starts nor
ends with a hyphen. -/
theorem c6_slug_derivation :
    generateSlug ("Hello, World!  2024") = ("hello-world-2024") ∧
    ∀ s : String, (generateSlug s).data.head? ≠ some '-' ∧
      (generateSlug s).data.getLast? ≠ some '-' := by
  refine ⟨by decide, fun s => ?_⟩
  have h := noAdj_collapseRuns (s.data.map Char.toLower)
  exact ⟨stripEdgeHyphens_head h, stripEdgeHyphens_last h⟩

/-- `getTeamMembership(userId, teamId)`: exact-match `findFirst` over the
`teamMembers` table. -/
def getTeamMembership (db : DB) (userId teamId : Nat) : Option TeamMemberRow :=
  db.memberships.find? (fun m => m.userId == userId && m.teamId == teamId)

/-- `getTeamForUser()`: the team of the first membership row of the resolved
user (`findFirst` over `teamMembers` on userId alone); only the team id is
needed by the article module. -/
def getTeamForUser (db : DB) (userId : Nat) : Option Nat :=
  (db.memberships.find? (fun m => m.userId == userId)).map (fun m => m.teamId)

/-- `db.query.articles.findFirst(where: eq(articles.id, articleId))`. -/
def findArticle (db : DB) (articleId : Nat) : Option Article :=
  db.articles.find? (fun a => a.id == articleId)

/-- `canUserEditArticle(articleId)`: the write/delete guard. Requires a
resolved user, an existing article, a membership row for (user, article
team), and authorship or the owner role on that membership row. -/
def canUserEditArticle (db : DB) (user : Option Nat) (articleId : Nat) : Bool :=
  match user with
  | none => false
  | some uid =>
    match findArticle db articleId with
    | none => false
    | some article =>
      match getTeamMembership db uid article.teamId with
      | none => false
      | some m => article.authorId == uid || m.role == Role.owner

/-- `getArticleById(articleId)`: resolved-user read, scoped to the current
user's (first) team; anonymous requesters and requesters without a team get
`null`. The nested author / tag / category projections of the source are not
needed by any claim and are omitted. -/
def getArticleById (db : DB) (user : Option Nat) (articleId : Nat) :
    Option Article :=
  match user with
  | none => none
  | some uid =>
    match getTeamForUser db uid with
    | none => none
    | some teamId =>
      db.articles.find? (fun a => a.id == articleId && a.teamId == teamId)

/-- `getArticleBySlug(slug)`: public read; takes no requester identity and
filters on `status == published`. -/
def getArticleBySlug (db : DB) (slug : String) : Option Article :=
  db.articles.find?
    (fun a => a.slug == slug && a.status == ArticleStatus.published)

/-- `getArticlesForTeam()`: `null` when no user or no team is resolved,
otherwise the team's articles (the source orders by `updatedAt` descending;
no claim concerns the order, so the filter result is kept unsorted). -/
def getArticlesForTeam (db : DB) (user : Option Nat) : Option (List Article) :=
  match user with
  | none => none
  | some uid =>
    match getTeamForUser db uid with
    | none => none
    | some teamId => some (db.articles.filter (fun a => a.teamId == teamId))

/-- `content.substring(0, 500)`, acting on the character sequence. -/
def substring500 (s : String) : String := String.mk (s.data.take 500)

/-- The argument record of the repository `createArticle`. (The route layer
also places `teamId` and `authorId` in the object it passes, but the
repository's parameter type has no such fields and the function never reads
them, so they are not part of this record.) -/
structure CreateData where
  title : String
  content : String
  excerpt : Option String
  status : Option ArticleStatus
  tagIds : Option (List Nat)
  categoryIds : Option (List Nat)
deriving DecidableEq, Repr

/-- `createArticle(data)`: requires a resolved user and a resolved team
(first membership); derives the slug; defaults status to draft; defaults a
missing or empty excerpt to the first 500 characters of the content
(`data.excerpt || data.content.substring(0, 500)`); stamps `publishedAt`
iff the effective status is published; inserts the row and any supplied
tag/category join rows. -/
def createArticle (db : DB) (user : Option Nat) (now : Nat)
    (data : CreateData) : Except String (DB × Article) :=
  match user with
  | none => Except.error ("User not authenticated")
  | some uid =>
    match getTeamForUser db uid with
    | none => Except.error ("User not in a team")
    | some teamId =>
      let slug := generateSlug data.title
      let status := data.status.getD ArticleStatus.draft
      let excerpt :=
        match data.excerpt with
        | some e => if e = "" then substring500 data.content else e
        | none => substring500 data.content
      let article : Article :=
        { id := db.nextArticleId, title := data.title, slug := slug,
          content := data.content, excerpt := excerpt, status := status,
          authorId := uid, teamId := teamId,
          publishedAt :=
            if status = ArticleStatus.published then some now else none,
          createdAt := now, updatedAt := now }
      let newTags :=
        match data.tagIds with
        | some l =>
            db.articleTags ++
              l.map (fun t => { articleId := article.id, tagId := t })
        | none => db.articleTags
      let newCats :=
        match data.categoryIds with
        | some l =>
            db.articleCategories ++
              l.map (fun c => { articleId := article.id, categoryId := c })
        | none => db.articleCategories
      let db2 : DB :=
        { db with
          articles := db.articles ++ [article],
          articleTags := newTags,
          articleCategories := newCats,
          nextArticleId := db.nextArticleId + 1 }
      Except.ok (db2, article)

/-- The patch record of the repository `updateArticle`. -/
structure UpdateData where
  title : Option String
  content : Option String
  excerpt : Option String
  status : Option ArticleStatus
  tagIds : Option (List Nat)
  categoryIds : Option (List Nat)
deriving DecidableEq, Repr

/-- The row produced by applying the `updateData` record built by
`updateArticle` to one article row: `updatedAt` always; `title` and `slug`
only when the patch title is truthy (present and non-empty); `content`,
`excerpt` when present (`!== undefined`); `status` when present;
`publishedAt` only when the publish branch computed a stamp. -/
def applyPatch (a : Article) (d : UpdateData) (pubAt : Option Nat)
    (now : Nat) : Article :=
  { a with
    updatedAt := now,
    title :=
      match d.title with
      | some t => if t = "" then a.title else t
      | none => a.title,
    slug :=
      match d.title with
      | some t => if t = "" then a.slug else generateSlug t
      | none => a.slug,
    content := d.content.getD a.content,
    excerpt := d.excerpt.getD a.excerpt,
    status := d.status.getD a.status,
    publishedAt :=
      match pubAt with
      | some ts => some ts
      | none => a.publishedAt }

/-- The `publishedAt` stamp computed by `updateArticle`: only when the patch
status is published, and then only if the article, looked up through the
team-scoped `getArticleById`, exists and has a null `publishedAt`. -/
def publishStamp (db : DB) (user : Option Nat) (articleId : Nat)
    (d : UpdateData) (now : Nat) : Option Nat :=
  match d.status with
  | some s =>
    if s = ArticleStatus.published then
      match getArticleById db user articleId with
      | some art => if art.publishedAt = none then some now else none
      | none => none
    else none
  | none => none

/-- `updateArticle(articleId, data)`: throws unless `canUserEditArticle`
allows; updates all article rows matching the id; when `tagIds`
(respectively `categoryIds`) is present — including the empty list — deletes
every join row of the article and inserts the supplied ones; returns
`result[0]` of the SQL update. -/
def updateArticle (db : DB) (user : Option Nat) (now : Nat)
    (articleId : Nat) (d : UpdateData) :
    Except String (DB × Option Article) :=
  if canUserEditArticle db user articleId then
    let pubAt := publishStamp db user articleId d now
    let newArticles := db.articles.map
      (fun a => if a.id == articleId then applyPatch a d pubAt now else a)
    let newTags :=
      match d.tagIds with
      | some l =>
          (db.articleTags.filter (fun r => !(r.articleId == articleId))) ++
            l.map (fun t => { articleId := articleId, tagId := t })
      | none => db.articleTags
    let newCats :=
      match d.categoryIds with
      | some l =>
          (db.articleCategories.filter
              (fun r => !(r.articleId == articleId))) ++
            l.map (fun c => { articleId := articleId, categoryId := c })
      | none => db.articleCategories
    let db2 : DB :=
      { db with
        articles := newArticles,
        articleTags := newTags,
        articleCategories := newCats }
    Except.ok
      (db2,
        ((db.articles.filter (fun a => a.id == articleId)).map
            (fun a => applyPatch a d pubAt now)).head?)
  else Except.error ("Unauthorized to edit this article")

/-- `deleteArticle(articleId)`: throws unless `canUserEditArticle` allows;
hard-deletes the article row (join rows are left untouched by the source). -/
def deleteArticle (db : DB) (user : Option Nat) (articleId : Nat) :
    Except String DB :=
  if canUserEditArticle db user articleId then
    Except.ok
      { db with articles := db.articles.filter (fun a => !(a.id == articleId)) }
  else Except.error ("Unauthorized to delete this article")

/-- Modelled from the spec: `sanitizeInput` (lib/utils/sanitize) is not
among the provided sources; the spec describes it as an HTML/script-stripping
sanitizer, modelled here as removing the markup delimiter characters, so
that no sanitized value ever contains a tag. -/
def sanitizeInput (s : String) : String :=
  String.mk (s.data.filter (fun c => !(c == '<' || c == '>')))

/-- The body fields the PATCH handler of `/api/articles/[id]` destructures
from the request json: only `title`, `content` and `status`. -/
structure PatchBody where
  title : Option String
  content : Option String
  status : Option ArticleStatus
deriving DecidableEq, Repr

/-- `PATCH /api/articles/[id]`: forwards the raw destructured body to
`updateArticle` (no sanitization); a thrown error becomes a 500, a null
result a 404, otherwise 200. Returns the response status and the store. -/
def updateArticlePATCH (db : DB) (user : Option Nat) (now : Nat)
    (articleId : Nat) (body : PatchBody) : Nat × DB :=
  match updateArticle db user now articleId
      { title := body.title, content := body.content, excerpt := none,
        status := body.status, tagIds := none, categoryIds := none } with
  | Except.error _ => (500, db)
  | Except.ok (db2, none) => (404, db2)
  | Except.ok (db2, some _) => (200, db2)

/-- `DELETE /api/articles/[id]`: a thrown error becomes a 500, otherwise
200 with `success: true`. -/
def deleteArticleDELETE (db : DB) (user : Option Nat) (articleId : Nat) :
    Nat × DB :=
  match deleteArticle db user articleId with
  | Except.error _ => (500, db)
  | Except.ok db2 => (200, db2)

/-- `GET /api/articles/[id]`: 404 when `getArticleById` yields null,
otherwise 200 with the article. -/
def getArticleByIdGET (db : DB) (user : Option Nat) (articleId : Nat) : Nat :=
  match getArticleById db user articleId with
  | none => 404
  | some _ => 200

/-- `GET /api/articles`: 401 when `getArticlesForTeam` yields null,
otherwise 200 with the list. -/
def listArticlesGET (db : DB) (user : Option Nat) : Nat :=
  match getArticlesForTeam db user with
  | none => 401
  | some _ => 200

/-- The validated body of the article-creation POST handler
(`createArticleSchema`): status is required and an enum member, `teamId` is
required. -/
structure CreateReq where
  title : String
  content : String
  excerpt : Option String
  status : ArticleStatus
  tagIds : Option (List Nat)
  categoryIds : Option (List Nat)
  teamId : Nat
deriving DecidableEq, Repr

/-- The article-creation POST handler: 401 without a session; 403 when the
caller has no membership row for the supplied `teamId`; otherwise sanitizes
the free-text fields (`excerpt` only when truthy) and calls the repository
`createArticle`, whose thrown errors become 500. Returns the response
status, the store, and the created article the handler answers with. -/
def createArticlePOST (db : DB) (user : Option Nat) (now : Nat)
    (req : CreateReq) : Nat × DB × Option Article :=
  match user with
  | none => (401, db, none)
  | some uid =>
    match getTeamMembership db uid req.teamId with
    | none => (403, db, none)
    | some _ =>
      let sanitized : CreateData :=
        { title := sanitizeInput req.title,
          content := sanitizeInput req.content,
          excerpt :=
            match req.excerpt with
            | some e => if e = "" then none else some (sanitizeInput e)
            | none => none,
          status := some req.status,
          tagIds := req.tagIds,
          categoryIds := req.categoryIds }
      match createArticle db (some uid) now sanitized with
      | Except.error _ => (500, db, none)
      | Except.ok (db2, article) => (200, db2, some article)

theorem canUserEditArticle_iff (db : DB) (user : Option Nat)
    (articleId : Nat) (a : Article)
    (hfind : findArticle db articleId = some a) :
    canUserEditArticle db user articleId = true ↔
      ∃ uid, user = some uid ∧
        ∃ m, getTeamMembership db uid a.teamId = some m ∧
          (a.authorId = uid ∨ m.role = Role.owner) := by
  cases user with
  | none => simp [canUserEditArticle]
  | some uid =>
    simp only [canUserEditArticle, hfind]
    cases hm : getTeamMembership db uid a.teamId with
    | none => simp [hm]
    | some m => simp [hm, Bool.or_eq_true, beq_iff_eq]

/-- C1: For every update or delete of an existing article, the operation is
allowed (no authorization error thrown) iff a user is resolved, a membership
row for (user, article team) exists, and that membership has the owner role
or the article's authorId equals the user's id; in particular a plain
non-author member is denied and an author or an owner is allowed. -/
theorem c1_write_guard (db : DB) (user : Option Nat) (now : Nat)
    (articleId : Nat) (d : UpdateData) (a : Article)
    (hfind : findArticle db articleId = some a) :
    ((∃ r, updateArticle db user now articleId d = Except.ok r) ↔
      ∃ uid, user = some uid ∧
        ∃ m, getTeamMembership db uid a.teamId = some m ∧
          (a.authorId = uid ∨ m.role = Role.owner)) ∧
    ((∃ r, deleteArticle db user articleId = Except.ok r) ↔
      ∃ uid, user = some uid ∧
        ∃ m, getTeamMembership db uid a.teamId = some m ∧
          (a.authorId = uid ∨ m.role = Role.owner)) := by
  have hiff := canUserEditArticle_iff db user articleId a hfind
  constructor
  · rw [← hiff]
    unfold updateArticle
    cases hce : canUserEditArticle db user articleId <;> simp [hce]
  · rw [← hiff]
    unfold deleteArticle
    cases hce : canUserEditArticle db user articleId <;> simp [hce]

/-- A patch with no fields supplied. -/
def emptyPatch : UpdateData :=
  { title := none, content := none, excerpt := none, status := none,
    tagIds := none, categoryIds := none }

/-- A team with an owner (user 1) and a plain member (user 2), and one
draft article authored by the plain member. -/
def artC1 : Article :=
  { id := 1, title := "T", slug := "t", content := "c", excerpt := "e",
    status := ArticleStatus.draft, authorId := 2, teamId := 1,
    publishedAt := none, createdAt := 0, updatedAt := 0 }

def dbC1 : DB :=
  { memberships := [⟨1, 1, Role.owner⟩, ⟨2, 1, Role.member⟩],
    articles := [artC1], articleTags := [], articleCategories := [],
    nextArticleId := 2 }

theorem c1_write_guard_witness :
    findArticle dbC1 1 = some artC1 ∧
    (∃ r, updateArticle dbC1 (some 1) 5 1 emptyPatch = Except.ok r) ∧
    (∃ r, deleteArticle dbC1 (some 1) 1 = Except.ok r) := by
  have h := c1_write_guard dbC1 (some 1) 5 1 emptyPatch artC1 (by decide)
  refine ⟨by decide, h.1.mpr ?_, h.2.mpr ?_⟩ <;>
    exact ⟨1, rfl, ⟨⟨1, 1, Role.owner⟩, by decide, Or.inr rfl⟩⟩

/-- A published article in team 1, with an empty membership table. -/
def artC2 : Article :=
  { id := 1, title := "Hello", slug := "hello", content := "c", excerpt := "e",
    status := ArticleStatus.published, authorId := 1, teamId := 1,
    publishedAt := some 0, createdAt := 0, updatedAt := 0 }

def dbC2 : DB :=
  { memberships := [], articles := [artC2], articleTags := [],
    articleCategories := [], nextArticleId := 2 }

/-- C2 counterexample: the claim says every published article is returned by
the read operation for any requester, and cites `getArticleById`; but the
id-based read returns none to an anonymous requester even though the
article is published. -/
theorem c2_counterexample :
    artC2 ∈ dbC2.articles ∧ artC2.status = ArticleStatus.published ∧
    getArticleById dbC2 none artC2.id = none := by decide

/-- C2 (amended): any published article is returned to any requester only by
the slug-based public read, which takes no requester identity at all; the
id-based read is team-scoped: it returns none to an anonymous requester and
to a resolved user with no team, regardless of the article's status. -/
theorem c2_published_read :
    (∀ (db : DB) (s : String) (a : Article), a ∈ db.articles → a.slug = s →
      a.status = ArticleStatus.published →
      ∃ b, getArticleBySlug db s = some b ∧ b.slug = s ∧
        b.status = ArticleStatus.published) ∧
    (∀ (db : DB) (articleId : Nat), getArticleById db none articleId = none) ∧
    (∀ (db : DB) (uid articleId : Nat), getTeamForUser db uid = none →
      getArticleById db (some uid) articleId = none) := by
  refine ⟨?_, ?_, ?_⟩
  · intro db s a hmem hslug hstat
    have hsome : (getArticleBySlug db s).isSome := by
      unfold getArticleBySlug
      rw [List.find?_isSome]
      exact ⟨a, hmem, by simp [hslug, hstat]⟩
    obtain ⟨b, hb⟩ := Option.isSome_iff_exists.mp hsome
    have hpb : (b.slug == s && b.status == ArticleStatus.published) = true := by
      apply List.find?_some (p := fun a =>
        a.slug == s && a.status == ArticleStatus.published) (l := db.articles)
      rw [← hb]
      rfl
    simp only [Bool.and_eq_true, beq_iff_eq] at hpb
    exact ⟨b, hb, hpb.1, hpb.2⟩
  · intro db articleId
    rfl
  · intro db uid articleId h
    simp [getArticleById, h]

theorem c2_published_read_witness :
    (∃ b, getArticleBySlug dbC2 ("hello") = some b ∧ b.slug = ("hello") ∧
      b.status = ArticleStatus.published) ∧
    getArticleById dbC2 none 1 = none :=
  ⟨c2_published_read.1 dbC2 ("hello") artC2 (by decide) (by decide)
      (by decide),
    c2_published_read.2.1 dbC2 1⟩

theorem find?_eq_none_of_filter_nil {α : Type} (l : List α) (p q : α → Bool)
    (hpq : ∀ x, q x = true → p x = true) (h : l.filter p = []) :
    l.find? q = none := by
  rw [List.find?_eq_none]
  intro x hx hqx
  have hmem : x ∈ l.filter p := List.mem_filter.mpr ⟨hx, hpq x hqx⟩
  rw [h] at hmem
  exact absurd hmem (List.not_mem_nil x)

theorem find?_of_filter_singleton {α : Type} (l : List α) (p q : α → Bool)
    (a : α) (hpq : ∀ x, q x = true → p x = true) (h : l.filter p = [a]) :
    l.find? q = if q a then some a else none := by
  induction l with
  | nil => simp at h
  | cons x xs ih =>
    by_cases hp : p x = true
    · rw [List.filter_cons_of_pos hp] at h
      injection h with h1 h2
      subst h1
      cases hq : q x with
      | true => simp [List.find?_cons, hq]
      | false =>
        rw [List.find?_cons]
        rw [hq]
        simp only [Bool.false_eq_true, if_false]
        exact find?_eq_none_of_filter_nil xs p q hpq h2
    · rw [List.filter_cons_of_neg hp] at h
      have hqx : q x = false := by
        cases hqx : q x with
        | false => rfl
        | true => exact absurd (hpq x hqx) hp
      rw [List.find?_cons, hqx]
      simpa using ih h

theorem filter_singleton_pred {α : Type} (l : List α) (p : α → Bool) (a : α)
    (h : l.filter p = [a]) : p a = true := by
  have hmem : a ∈ l.filter p := by
    rw [h]
    exact List.mem_cons_self a []
  exact (List.mem_filter.mp hmem).2

theorem getArticleById_of_first_team (db : DB) (uid articleId : Nat)
    (a : Article)
    (hfilter : db.articles.filter (fun x => x.id == articleId) = [a])
    (hteam : getTeamForUser db uid = some a.teamId) :
    getArticleById db (some uid) articleId = some a := by
  have ha_id : (a.id == articleId) = true :=
    filter_singleton_pred db.articles (fun x => x.id == articleId) a hfilter
  simp only [getArticleById, hteam]
  rw [find?_of_filter_singleton db.articles (fun x => x.id == articleId)
      (fun x => x.id == articleId && x.teamId == a.teamId) a
      (fun x hx => by rw [Bool.and_eq_true] at hx; exact hx.1) hfilter]
  simp [ha_id]

/-- A user belonging to two teams (member of team 1 first, owner of team 2),
and a draft article in team 2 authored by someone else. -/
def artC3 : Article :=
  { id := 10, title := "T", slug := "t", content := "c", excerpt := "e",
    status := ArticleStatus.draft, authorId := 2, teamId := 2,
    publishedAt := none, createdAt := 0, updatedAt := 0 }

def dbC3 : DB :=
  { memberships := [⟨1, 1, Role.member⟩, ⟨1, 2, Role.owner⟩],
    articles := [artC3], articleTags := [], articleCategories := [],
    nextArticleId := 11 }

/-- The patch that only sets the status to published. -/
def publishPatch : UpdateData :=
  { emptyPatch with status := some ArticleStatus.published }

/-- The article row returned by `updateArticle` on an `.ok` result. -/
def updatedRow (r : Except String (DB × Option Article)) : Option Article :=
  match r with
  | Except.ok (_, x) => x
  | Except.error _ => none

/-- C3 counterexample: user 1 (owner of team 2, but whose first membership
is team 1) updates the draft article of team 2 to published; the edit is
authorized, the status transition into published happens while publishedAt
is null, yet publishedAt is not set — because the publish branch looks the
article up through the team-scoped `getArticleById`, which resolves the
user's first team. -/
theorem c3_counterexample :
    canUserEditArticle dbC3 (some 1) 10 = true ∧
    artC3.publishedAt = none ∧
    (updatedRow (updateArticle dbC3 (some 1) 100 10 publishPatch)).map
        (fun a => (a.status, a.publishedAt)) =
      some (ArticleStatus.published, (none : Option Nat)) := by decide

/-- C3 (amended): creation stamps publishedAt iff the effective status is
published; an authorized update by a user whose resolved (first) team is
the article's team sets publishedAt exactly on a transition into published
while it is null, and otherwise leaves the stored value unchanged — so a
change back to draft and a later re-publish keep the original stamp. (When
the editor's first team differs from the article's team the stamp is
skipped, see the counterexample.) -/
theorem c3_publishedAt_once :
    (∀ (db : DB) (user : Option Nat) (now : Nat) (cd : CreateData)
        (db2 : DB) (art : Article),
      createArticle db user now cd = Except.ok (db2, art) →
      art.publishedAt =
        (if cd.status.getD ArticleStatus.draft = ArticleStatus.published
          then some now else none)) ∧
    (∀ (db : DB) (uid now articleId : Nat) (d : UpdateData) (a : Article)
        (db2 : DB) (a2 : Article),
      db.articles.filter (fun x => x.id == articleId) = [a] →
      getTeamForUser db uid = some a.teamId →
      updateArticle db (some uid) now articleId d = Except.ok (db2, some a2) →
      a2.publishedAt =
        (if d.status = some ArticleStatus.published ∧ a.publishedAt = none
          then some now else a.publishedAt)) := by
  constructor
  · intro db user now cd db2 art h
    cases user with
    | none => exact absurd h (by simp [createArticle])
    | some uid =>
      cases ht : getTeamForUser db uid with
      | none => exact absurd h (by simp [createArticle, ht])
      | some teamId =>
        simp only [createArticle, ht] at h
        obtain ⟨-, h2⟩ := Prod.mk.injEq .. ▸ Except.ok.inj h
        rw [← h2]
  · intro db uid now articleId d a db2 a2 hfilter hteam h
    cases hce : canUserEditArticle db (some uid) articleId with
    | false => exact absurd h (by simp [updateArticle, hce])
    | true =>
      simp only [updateArticle, hce, if_true] at h
      obtain ⟨-, h2⟩ := Prod.mk.injEq .. ▸ Except.ok.inj h
      rw [hfilter] at h2
      simp only [List.map_cons, List.map_nil, List.head?_cons,
        Option.some.injEq] at h2
      rw [← h2]
      have hstamp :
          publishStamp db (some uid) articleId d now =
            (if d.status = some ArticleStatus.published ∧ a.publishedAt = none
              then some now else none) := by
        unfold publishStamp
        cases hds : d.status with
        | none => simp [hds]
        | some s =>
          by_cases hs : s = ArticleStatus.published
          · subst hs
            rw [getArticleById_of_first_team db uid articleId a hfilter hteam]
            by_cases hpa : a.publishedAt = none
            · simp [hpa]
            · simp [hpa]
          · simp [hs, fun hcontra => hs (Option.some.inj hcontra)]
      rw [hstamp]
      simp only [applyPatch]
      by_cases hcond :
          d.status = some ArticleStatus.published ∧ a.publishedAt = none
      · simp [hcond]
      · simp [hcond]

deriving instance DecidableEq for Except

def cw3 : CreateData :=
  { title := "My Post", content := "0123456789", excerpt := none,
    status := some ArticleStatus.published, tagIds := none,
    categoryIds := none }

def artW3 : Article :=
  { id := 2, title := "My Post", slug := "my-post",
    content := "0123456789", excerpt := "0123456789",
    status := ArticleStatus.published, authorId := 1, teamId := 1,
    publishedAt := some 7, createdAt := 7, updatedAt := 7 }

def dbW3 : DB :=
  { dbC1 with articles := [artC1, artW3], nextArticleId := 3 }

def artU3 : Article :=
  { artC1 with
    status := ArticleStatus.published,
    publishedAt := some 9,
    updatedAt := 9 }

def dbU3 : DB :=
  { dbC1 with articles := [artU3] }

theorem c3_publishedAt_once_witness :
    createArticle dbC1 (some 1) 7 cw3 = Except.ok (dbW3, artW3) ∧
    artW3.publishedAt =
      (if cw3.status.getD ArticleStatus.draft = ArticleStatus.published
        then some 7 else none) ∧
    dbC1.articles.filter (fun x => x.id == 1) = [artC1] ∧
    getTeamForUser dbC1 1 = some artC1.teamId ∧
    updateArticle dbC1 (some 1) 9 1 publishPatch =
      Except.ok (dbU3, some artU3) ∧
    artU3.publishedAt =
      (if publishPatch.status = some ArticleStatus.published ∧
          artC1.publishedAt = none
        then some 9 else artC1.publishedAt) := by
  refine ⟨by rfl, ?_, by decide, by decide, by rfl, ?_⟩
  · exact c3_publishedAt_once.1 dbC1 (some 1) 7 cw3 dbW3 artW3 (by rfl)
  · exact c3_publishedAt_once.2 dbC1 1 9 1 publishPatch artC1 dbU3 artU3
      (by decide) (by decide) (by rfl)

theorem filter_not_filter_nil {α : Type} (l : List α) (p : α → Bool) :
    (l.filter (fun x => !(p x))).filter p = [] := by
  rw [List.filter_eq_nil_iff]
  intro a ha
  have hnp := (List.mem_filter.mp ha).2
  simp only [Bool.not_eq_true'] at hnp
  simp [hnp]

theorem filter_tagRow_map (articleId : Nat) (l : List Nat) :
    (l.map (fun t => ({ articleId := articleId, tagId := t } :
        ArticleTagRow))).filter (fun row => row.articleId == articleId) =
      l.map (fun t => { articleId := articleId, tagId := t }) := by
  rw [List.filter_eq_self]
  intro a ha
  obtain ⟨t, -, rfl⟩ := List.mem_map.mp ha
  simp

theorem filter_catRow_map (articleId : Nat) (l : List Nat) :
    (l.map (fun c => ({ articleId := articleId, categoryId := c } :
        ArticleCategoryRow))).filter
        (fun row => row.articleId == articleId) =
      l.map (fun c => { articleId := articleId, categoryId := c }) := by
  rw [List.filter_eq_self]
  intro a ha
  obtain ⟨c, -, rfl⟩ := List.mem_map.mp ha
  simp

/-- C4: On every successful update, a patch containing `tagIds`
(respectively `categoryIds`) — including the empty list — replaces the
article's full association set with exactly the supplied ids, leaving join
rows of other articles untouched; a patch without the field leaves the
association table exactly as it was. -/
theorem c4_assoc_replacement (db : DB) (user : Option Nat) (now : Nat)
    (articleId : Nat) (d : UpdateData) (db2 : DB) (r : Option Article)
    (h : updateArticle db user now articleId d = Except.ok (db2, r)) :
    (∀ l, d.tagIds = some l →
      db2.articleTags =
        (db.articleTags.filter (fun row => !(row.articleId == articleId))) ++
          l.map (fun t => { articleId := articleId, tagId := t }) ∧
      db2.articleTags.filter (fun row => row.articleId == articleId) =
        l.map (fun t => { articleId := articleId, tagId := t })) ∧
    (d.tagIds = none → db2.articleTags = db.articleTags) ∧
    (∀ l, d.categoryIds = some l →
      db2.articleCategories =
        (db.articleCategories.filter
            (fun row => !(row.articleId == articleId))) ++
          l.map (fun c => { articleId := articleId, categoryId := c }) ∧
      db2.articleCategories.filter (fun row => row.articleId == articleId) =
        l.map (fun c => { articleId := articleId, categoryId := c })) ∧
    (d.categoryIds = none → db2.articleCategories = db.articleCategories) := by
  cases hce : canUserEditArticle db user articleId with
  | false => exact absurd h (by simp [updateArticle, hce])
  | true =>
    simp only [updateArticle, hce, if_true] at h
    obtain ⟨h1, -⟩ := Prod.mk.injEq .. ▸ Except.ok.inj h
    subst h1
    refine ⟨?_, ?_, ?_, ?_⟩
    · intro l hl
      constructor
      · simp [hl]
      · simp only [hl]
        rw [List.filter_append, filter_not_filter_nil,
          filter_tagRow_map articleId l, List.nil_append]
    · intro hl
      simp [hl]
    · intro l hl
      constructor
      · simp [hl]
      · simp only [hl]
        rw [List.filter_append, filter_not_filter_nil,
          filter_catRow_map articleId l, List.nil_append]
    · intro hl
      simp [hl]

/-- A store with tag rows for two articles and one category row. -/
def dbT4 : DB :=
  { memberships := [⟨1, 1, Role.owner⟩], articles := [artC1],
    articleTags := [⟨1, 5⟩, ⟨2, 6⟩], articleCategories := [⟨1, 7⟩],
    nextArticleId := 2 }

def d4 : UpdateData := { emptyPatch with tagIds := some [8, 9] }

def artT4b : Article := { artC1 with updatedAt := 3 }

def dbT4b : DB :=
  { dbT4 with
    articles := [artT4b],
    articleTags := [⟨2, 6⟩, ⟨1, 8⟩, ⟨1, 9⟩] }

theorem c4_assoc_replacement_witness :
    updateArticle dbT4 (some 1) 3 1 d4 = Except.ok (dbT4b, some artT4b) ∧
    (dbT4b.articleTags =
        (dbT4.articleTags.filter (fun row => !(row.articleId == 1))) ++
          [8, 9].map (fun t => ({ articleId := 1, tagId := t } :
            ArticleTagRow)) ∧
      dbT4b.articleTags.filter (fun row => row.articleId == 1) =
        [8, 9].map (fun t => ({ articleId := 1, tagId := t } :
          ArticleTagRow))) ∧
    dbT4b.articleCategories = dbT4.articleCategories := by
  have hok : updateArticle dbT4 (some 1) 3 1 d4 =
      Except.ok (dbT4b, some artT4b) := by rfl
  have H := c4_assoc_replacement dbT4 (some 1) 3 1 d4 dbT4b (some artT4b) hok
  exact ⟨hok, H.1 [8, 9] rfl, H.2.2.2 rfl⟩

/-- A draft article in team 1; user 2 exists but has no membership row. -/
def artC5 : Article :=
  { id := 1, title := "D", slug := "d", content := "c", excerpt := "e",
    status := ArticleStatus.draft, authorId := 1, teamId := 1,
    publishedAt := none, createdAt := 0, updatedAt := 0 }

def dbC5 : DB :=
  { memberships := [], articles := [artC5], articleTags := [],
    articleCategories := [], nextArticleId := 2 }

/-- C5 counterexample: the claim says a denied read with no resolved user
yields 401; but `GET /api/articles/[id]` on a draft article returns 404 for
an anonymous requester (and the same 404 for a member-less user), so the
two failure modes are not mapped to 401 and 403. -/
theorem c5_counterexample :
    artC5.status ≠ ArticleStatus.published ∧
    getArticleById dbC5 none 1 = none ∧
    getArticleByIdGET dbC5 none 1 = 404 ∧
    getArticleByIdGET dbC5 (some 2) 1 = 404 := by decide

/-- C5 (amended): the two denial modes of a non-published read are not
externally distinguishable: the id-based GET answers 404 both to an
anonymous requester and to a resolved user lacking membership in the
article's team, and the list GET answers 401 in both modes; no read path
produces the 401-versus-403 distinction. -/
theorem c5_denied_reads :
    (∀ (db : DB) (articleId : Nat),
      getArticleByIdGET db none articleId = 404) ∧
    (∀ (db : DB) (uid articleId : Nat), getTeamForUser db uid = none →
      getArticleByIdGET db (some uid) articleId = 404) ∧
    (∀ (db : DB) (uid articleId : Nat),
      (∀ a ∈ db.articles, a.id = articleId →
        ∀ m ∈ db.memberships, m.userId = uid → m.teamId ≠ a.teamId) →
      getArticleByIdGET db (some uid) articleId = 404) ∧
    (∀ db : DB, listArticlesGET db none = 401) ∧
    (∀ (db : DB) (uid : Nat), getTeamForUser db uid = none →
      listArticlesGET db (some uid) = 401) := by
  refine ⟨?_, ?_, ?_, ?_, ?_⟩
  · intro db articleId
    rfl
  · intro db uid articleId h
    simp [getArticleByIdGET, getArticleById, h]
  · intro db uid articleId hno
    cases ht : getTeamForUser db uid with
    | none => simp [getArticleByIdGET, getArticleById, ht]
    | some t =>
      have hfind : db.articles.find?
          (fun a => a.id == articleId && a.teamId == t) = none := by
        rw [List.find?_eq_none]
        intro a hmem hpa
        rw [Bool.and_eq_true, beq_iff_eq, beq_iff_eq] at hpa
        obtain ⟨m0, hm0⟩ :=
          Option.map_eq_some'.mp ht
        have hm0mem := List.mem_of_find?_eq_some hm0.1
        have hm0uid := List.find?_some hm0.1
        simp only [beq_iff_eq] at hm0uid
        exact hno a hmem hpa.1 m0 hm0mem hm0uid (hm0.2 ▸ hpa.2.symm)
      simp [getArticleByIdGET, getArticleById, ht, hfind]
  · intro db
    rfl
  · intro db uid h
    simp [listArticlesGET, getArticlesForTeam, h]

theorem c5_denied_reads_witness :
    getArticleByIdGET dbC5 none 1 = 404 ∧
    getTeamForUser dbC5 2 = none ∧
    getArticleByIdGET dbC5 (some 2) 1 = 404 ∧
    listArticlesGET dbC5 none = 401 ∧
    listArticlesGET dbC5 (some 2) = 401 :=
  ⟨c5_denied_reads.1 dbC5 1, by decide,
    c5_denied_reads.2.2.1 dbC5 2 1 (by decide),
    c5_denied_reads.2.2.2.1 dbC5,
    c5_denied_reads.2.2.2.2 dbC5 2 (by decide)⟩

theorem getTeamForUser_mem (db : DB) (uid t : Nat)
    (h : getTeamForUser db uid = some t) :
    ∃ m ∈ db.memberships, m.userId = uid ∧ m.teamId = t := by
  obtain ⟨m0, hm0, hm0t⟩ := Option.map_eq_some'.mp h
  have hmem := List.mem_of_find?_eq_some hm0
  have huid := List.find?_some hm0
  simp only [beq_iff_eq] at huid
  exact ⟨m0, hmem, huid, hm0t⟩

theorem createArticlePOST_ok_fields (db : DB) (uid now : Nat)
    (req : CreateReq) (db2 : DB) (art : Article)
    (h : createArticlePOST db (some uid) now req = (200, db2, some art)) :
    getTeamForUser db uid = some art.teamId ∧ art.authorId = uid := by
  cases hm : getTeamMembership db uid req.teamId with
  | none => exact absurd h (by simp [createArticlePOST, hm])
  | some mem =>
    cases ht : getTeamForUser db uid with
    | none =>
      exact absurd h (by simp [createArticlePOST, hm, createArticle, ht])
    | some t =>
      simp only [createArticlePOST, hm, createArticle, ht] at h
      obtain ⟨-, h23⟩ := Prod.mk.injEq .. ▸ h
      obtain ⟨-, h3⟩ := Prod.mk.injEq .. ▸ h23
      have h4 := Option.some.inj h3
      rw [← h4]
      exact ⟨rfl, rfl⟩

/-- A user who is a member of two teams (team 1 first), creating into the
second team. -/
def reqC7 : CreateReq :=
  { title := "Hi", content := "World stuff", excerpt := none,
    status := ArticleStatus.draft, tagIds := none, categoryIds := none,
    teamId := 2 }

def dbC7 : DB :=
  { memberships := [⟨1, 1, Role.member⟩, ⟨1, 2, Role.member⟩],
    articles := [], articleTags := [], articleCategories := [],
    nextArticleId := 10 }

/-- C7 counterexample: user 1 belongs to teams 1 and 2 (in that order) and
supplies teamId 2; the membership check passes and the request succeeds,
but the created article is stored under team 1 — the caller's first
membership — not the supplied teamId 2. -/
theorem c7_counterexample :
    (createArticlePOST dbC7 (some 1) 0 reqC7).1 = 200 ∧
    ((createArticlePOST dbC7 (some 1) 0 reqC7).2.2).map
        (fun a => a.teamId) = some 1 ∧
    reqC7.teamId = 2 := by decide

/-- C7 (amended): creation requires a session (else 401) and a membership
row (any role) for the supplied teamId (else 403, store untouched); on
success the created article's teamId is the caller's first resolved
membership's team — always a team the caller belongs to, and equal to the
supplied teamId whenever every membership of the caller is in that team
(in particular when the caller has at most one membership) — and its
authorId is the caller. -/
theorem c7_create_team :
    (∀ (db : DB) (now : Nat) (req : CreateReq),
      createArticlePOST db none now req = (401, db, none)) ∧
    (∀ (db : DB) (uid now : Nat) (req : CreateReq),
      getTeamMembership db uid req.teamId = none →
      createArticlePOST db (some uid) now req = (403, db, none)) ∧
    (∀ (db : DB) (uid now : Nat) (req : CreateReq) (db2 : DB)
        (art : Article),
      createArticlePOST db (some uid) now req = (200, db2, some art) →
      getTeamForUser db uid = some art.teamId ∧
      (∃ m ∈ db.memberships, m.userId = uid ∧ m.teamId = art.teamId) ∧
      art.authorId = uid) ∧
    (∀ (db : DB) (uid now : Nat) (req : CreateReq) (db2 : DB)
        (art : Article),
      (∀ m ∈ db.memberships, m.userId = uid → m.teamId = req.teamId) →
      createArticlePOST db (some uid) now req = (200, db2, some art) →
      art.teamId = req.teamId) := by
  refine ⟨?_, ?_, ?_, ?_⟩
  · intro db now req
    rfl
  · intro db uid now req h
    simp [createArticlePOST, h]
  · intro db uid now req db2 art h
    obtain ⟨ht, hauthor⟩ := createArticlePOST_ok_fields db uid now req db2 art h
    obtain ⟨m0, hmem, huid, hteam⟩ := getTeamForUser_mem db uid art.teamId ht
    exact ⟨ht, ⟨m0, hmem, huid, hteam⟩, hauthor⟩
  · intro db uid now req db2 art hall h
    obtain ⟨ht, -⟩ := createArticlePOST_ok_fields db uid now req db2 art h
    obtain ⟨m0, hmem, huid, hteam⟩ := getTeamForUser_mem db uid art.teamId ht
    rw [← hteam]
    exact hall m0 hmem huid

def req7b : CreateReq :=
  { title := "Hi", content := "World stuff", excerpt := none,
    status := ArticleStatus.draft, tagIds := none, categoryIds := none,
    teamId := 1 }

def artW7 : Article :=
  { id := 2, title := "Hi", slug := "hi", content := "World stuff",
    excerpt := "World stuff", status := ArticleStatus.draft,
    authorId := 1, teamId := 1, publishedAt := none, createdAt := 4,
    updatedAt := 4 }

def dbW7 : DB :=
  { dbC1 with articles := [artC1, artW7], nextArticleId := 3 }

theorem c7_create_team_witness :
    createArticlePOST dbC1 none 4 req7b = (401, dbC1, none) ∧
    getTeamMembership dbC1 5 req7b.teamId = none ∧
    createArticlePOST dbC1 (some 5) 4 req7b = (403, dbC1, none) ∧
    createArticlePOST dbC1 (some 1) 4 req7b = (200, dbW7, some artW7) ∧
    getTeamForUser dbC1 1 = some artW7.teamId ∧
    artW7.teamId = req7b.teamId := by
  refine ⟨c7_create_team.1 dbC1 4 req7b, by decide,
    c7_create_team.2.1 dbC1 5 4 req7b (by decide), by rfl, ?_, ?_⟩
  · exact (c7_create_team.2.2.1 dbC1 1 4 req7b dbW7 artW7 (by rfl)).1
  · exact c7_create_team.2.2.2 dbC1 1 4 req7b dbW7 artW7 (by decide) (by rfl)

def bodyC8 : PatchBody := { title := none, content := none, status := none }

def dbC8 : DB :=
  { memberships := [⟨1, 1, Role.owner⟩], articles := [], articleTags := [],
    articleCategories := [], nextArticleId := 1 }

/-- C8 counterexample: with a resolved user and a nonexistent article id,
PATCH and DELETE both answer 500 (the repository throws its authorization
error), not the 404 the claim requires. -/
theorem c8_counterexample :
    findArticle dbC8 5 = none ∧
    updateArticlePATCH dbC8 (some 1) 0 5 bodyC8 = (500, dbC8) ∧
    deleteArticleDELETE dbC8 (some 1) 5 = (500, dbC8) := by decide

/-- C8 (amended): for a mutating request whose target id does not exist,
`canUserEditArticle` answers false exactly as it does for an authorization
failure, the repository operations throw their unauthorized errors, and the
PATCH and DELETE endpoints answer 500 — never 404; the PATCH 404 branch is
unreachable for a missing id. -/
theorem c8_missing_target :
    ∀ (db : DB) (user : Option Nat) (now articleId : Nat)
      (body : PatchBody) (d : UpdateData),
      findArticle db articleId = none →
      canUserEditArticle db user articleId = false ∧
      updateArticle db user now articleId d =
        Except.error ("Unauthorized to edit this article") ∧
      (updateArticlePATCH db user now articleId body).1 = 500 ∧
      deleteArticle db user articleId =
        Except.error ("Unauthorized to delete this article") ∧
      (deleteArticleDELETE db user articleId).1 = 500 := by
  intro db user now articleId body d h
  have hce : canUserEditArticle db user articleId = false := by
    cases user with
    | none => rfl
    | some uid => simp [canUserEditArticle, h]
  refine ⟨hce, ?_, ?_, ?_, ?_⟩
  · simp [updateArticle, hce]
  · simp [updateArticlePATCH, updateArticle, hce]
  · simp [deleteArticle, hce]
  · simp [deleteArticleDELETE, deleteArticle, hce]

theorem c8_missing_target_witness :
    findArticle dbC8 5 = none ∧
    canUserEditArticle dbC8 (some 1) 5 = false ∧
    (updateArticlePATCH dbC8 (some 1) 0 5 bodyC8).1 = 500 ∧
    (deleteArticleDELETE dbC8 (some 1) 5).1 = 500 := by
  have H := c8_missing_target dbC8 (some 1) 0 5 bodyC8 emptyPatch (by decide)
  exact ⟨by decide, H.1, H.2.2.1, H.2.2.2.2⟩

theorem sanitizeInput_no_lt (s : String) : '<' ∉ (sanitizeInput s).data := by
  intro hmem
  have hpred := (List.mem_filter.mp hmem).2
  simp at hpred

def artC9 : Article :=
  { id := 1, title := "Hello", slug := "hello", content := "body",
    excerpt := "e", status := ArticleStatus.draft, authorId := 1,
    teamId := 1, publishedAt := none, createdAt := 0, updatedAt := 0 }

def dbC9 : DB :=
  { memberships := [⟨1, 1, Role.owner⟩], articles := [artC9],
    articleTags := [], articleCategories := [], nextArticleId := 2 }

def bodyC9 : PatchBody :=
  { title := some ("<script>alert(1)</script>"), content := none,
    status := none }

/-- C9: the PATCH handler passes the destructured body fields to
`updateArticle` verbatim; at this input the persisted title is the raw
markup string, which is not in the image of `sanitizeInput` (the sanitizer
never emits a markup delimiter) — so a free-text field of a mutating
request reaches and is stored by the repository unsanitized, against the
sanitization contract. -/
theorem c9_unsanitized_update :
    (updateArticlePATCH dbC9 (some 1) 9 1 bodyC9).1 = 200 ∧
    (findArticle (updateArticlePATCH dbC9 (some 1) 9 1 bodyC9).2 1).map
        (fun a => a.title) = some ("<script>alert(1)</script>") ∧
    ∀ s : String, sanitizeInput s ≠ ("<script>alert(1)</script>") := by
  refine ⟨by rfl, by rfl, ?_⟩
  intro s hcontra
  have hmem : '<' ∈ (sanitizeInput s).data := by
    rw [hcontra]
    decide
  exact sanitizeInput_no_lt s hmem

/-- C10: On every successful update whose patch holds the empty string as
title, the stored title and slug are unchanged (the truthiness check skips
them, so no slug regeneration happens), while an empty — or any — supplied
content or excerpt is applied verbatim, and updatedAt is refreshed. -/
theorem c10_empty_title_patch (db : DB) (user : Option Nat)
    (now articleId : Nat) (d : UpdateData) (a : Article) (db2 : DB)
    (a2 : Article)
    (hfilter : db.articles.filter (fun x => x.id == articleId) = [a])
    (htitle : d.title = some "")
    (h : updateArticle db user now articleId d = Except.ok (db2, some a2)) :
    a2.title = a.title ∧ a2.slug = a.slug ∧ a2.updatedAt = now ∧
    (∀ c, d.content = some c → a2.content = c) ∧
    (∀ e, d.excerpt = some e → a2.excerpt = e) := by
  cases hce : canUserEditArticle db user articleId with
  | false => exact absurd h (by simp [updateArticle, hce])
  | true =>
    simp only [updateArticle, hce, if_true] at h
    obtain ⟨-, h2⟩ := Prod.mk.injEq .. ▸ Except.ok.inj h
    rw [hfilter] at h2
    simp only [List.map_cons, List.map_nil, List.head?_cons,
      Option.some.injEq] at h2
    rw [← h2]
    refine ⟨?_, ?_, ?_, ?_, ?_⟩
    · simp [applyPatch, htitle]
    · simp [applyPatch, htitle]
    · simp [applyPatch]
    · intro c hc
      simp [applyPatch, hc]
    · intro e he
      simp [applyPatch, he]

def d10 : UpdateData :=
  { title := some "", content := some "", excerpt := some "",
    status := none, tagIds := none, categoryIds := none }

def artW10 : Article :=
  { artC1 with content := "", excerpt := "", updatedAt := 6 }

def dbW10 : DB := { dbC1 with articles := [artW10] }

theorem c10_empty_title_patch_witness :
    dbC1.articles.filter (fun x => x.id == 1) = [artC1] ∧
    updateArticle dbC1 (some 1) 6 1 d10 = Except.ok (dbW10, some artW10) ∧
    artW10.title = artC1.title ∧ artW10.slug = artC1.slug ∧
    artW10.updatedAt = 6 ∧ artW10.content = "" ∧ artW10.excerpt = "" := by
  have H := c10_empty_title_patch dbC1 (some 1) 6 1 d10 artC1 dbW10 artW10
    (by decide) (by rfl) (by rfl)
  exact ⟨by decide, by rfl, H.1, H.2.1, H.2.2.1, H.2.2.2.1 "" rfl,
    H.2.2.2.2 "" rfl⟩
